import Mathlib

/-!
Shallow embedding of the CC_project compiler pipeline
(src/lexer.py, src/parser.py, src/semantic.py, src/ir_generator.py,
src/assembly_generator.py) together with theorems settling the frozen
claims about its specification.

Recursive traversals are written with an explicit `fuel : Nat` argument so
that every definition is a computable structural recursion; top-level entry
points supply fuel that dominates the recursion depth of the Python
original, and fuel exhaustion is an error case that concrete evaluations
never reach.
-/

namespace CC

/-! ## Lexer (src/lexer.py)

PLY builds one master regex: function rules in definition order
(t_IDENTIFIER, t_NUMBER, t_COMMENT_SINGLELINE, t_COMMENT_MULTILINE,
t_newline), then the string rules sorted by decreasing regex length (so
t_ARROW `->` is tried before t_MINUS `-`), with `t_ignore = " \t"` skipped
before matching and t_error handling everything else. The step function
below mirrors exactly that order. -/

/-- Token kinds of src/lexer.py.  `NUMBER` carries the int value
(`int(t.value)`); a numeric literal with a decimal point is lexically
accepted as a float (`FNUMBER` keeps its lexeme; floats are unsupported
downstream, a documented gap). -/
inductive Tok where
  | IDENTIFIER (s : String)
  | NUMBER (n : Int)
  | FNUMBER (s : String)
  | PLUS | MINUS | TIMES | DIVIDE
  | LPAREN | RPAREN | SEMI | EQUALS | COMMA
  | LBRACE | RBRACE | GT | ARROW
  | IF | ELSE | WHILE | FOR | DEF | RETURN | INT | FUNCTION
deriving Repr, DecidableEq

/-- One diagnostic of `t_error`: the offending character and its line
(Python prints `Illegal character '<c>' at line <n>`), after which the
lexer skips one character and continues. -/
structure LexError where
  ch : Char
  line : Nat
deriving Repr, DecidableEq

/-- The `reserved` keyword dictionary of src/lexer.py. -/
def reserved (s : String) : Option Tok :=
  match s with
  | "if" => some .IF
  | "else" => some .ELSE
  | "while" => some .WHILE
  | "for" => some .FOR
  | "def" => some .DEF
  | "return" => some .RETURN
  | "int" => some .INT
  | "function" => some .FUNCTION
  | _ => none

/-- Python's `\w` on ASCII input: `[A-Za-z0-9_]`. -/
def isWordChar (c : Char) : Bool := c.isAlphanum || c = '_'

/-- `int(...)` of a digit string. -/
def charsToNat (cs : List Char) : Nat :=
  cs.foldl (fun a c => a * 10 + (c.toNat - 48)) 0

/-- Scan for the first `*/` closing a block comment (the non-greedy
`/\*(.|\n)*?\*/`), returning the rest of the input and the number of
newlines inside the comment (`t.value.count('\n')`). -/
def findBlockEnd : Nat → List Char → Option (List Char × Nat)
  | 0, _ => none
  | _+1, [] => none
  | _+1, '*' :: '/' :: rest => some (rest, 0)
  | fuel+1, '\n' :: rest => (findBlockEnd fuel rest).map (fun p => (p.1, p.2 + 1))
  | fuel+1, _ :: rest => findBlockEnd fuel rest

/-- A character at which some lexer rule matches.  Everything else reaches
`t_error`. -/
def isLegalStart (c : Char) : Bool :=
  c = ' ' || c = '\t' || c.isAlpha || c = '_' || c.isDigit || c = '/' ||
  c = '\n' || c = '-' || c = '+' || c = '*' || c = '(' || c = ')' ||
  c = ';' || c = '=' || c = ',' || c = '{' || c = '}' || c = '>'

/-- One token-at-a-time lexing loop of PLY over src/lexer.py's rules,
returning the token stream and the `t_error` diagnostics in order.
Fuel dominates the input length; every step consumes at least one
character. -/
def lexAux : Nat → List Char → Nat → List Tok × List LexError
  | 0, _, _ => ([], [])
  | _+1, [], _ => ([], [])
  | fuel+1, c :: cs, ln =>
    if c = ' ' || c = '\t' then
      -- t_ignore
      lexAux fuel cs ln
    else if c.isAlpha || c = '_' then
      -- t_IDENTIFIER, reclassified through `reserved`
      let w : String := ⟨c :: cs.takeWhile isWordChar⟩
      let rest := cs.dropWhile isWordChar
      let tok := match reserved w with
        | some k => k
        | none => .IDENTIFIER w
      let r := lexAux fuel rest ln
      (tok :: r.1, r.2)
    else if c.isDigit then
      -- t_NUMBER : \d+(\.\d+)?
      let ds := c :: cs.takeWhile Char.isDigit
      let rest := cs.dropWhile Char.isDigit
      match rest with
      | '.' :: d :: rest' =>
        if d.isDigit then
          let frac := d :: rest'.takeWhile Char.isDigit
          let rest'' := rest'.dropWhile Char.isDigit
          let r := lexAux fuel rest'' ln
          (.FNUMBER ⟨ds ++ '.' :: frac⟩ :: r.1, r.2)
        else
          let r := lexAux fuel rest ln
          (.NUMBER (charsToNat ds) :: r.1, r.2)
      | _ =>
        let r := lexAux fuel rest ln
        (.NUMBER (charsToNat ds) :: r.1, r.2)
    else if c = '/' then
      match cs with
      | '/' :: rest =>
        -- t_COMMENT_SINGLELINE : //.*  (dot does not match the newline)
        lexAux fuel (rest.dropWhile (· ≠ '\n')) ln
      | '*' :: rest =>
        -- t_COMMENT_MULTILINE if a closing */ exists, else DIVIDE
        match findBlockEnd rest.length rest with
        | some (rest', k) => lexAux fuel rest' (ln + k)
        | none =>
          let r := lexAux fuel cs ln
          (.DIVIDE :: r.1, r.2)
      | _ =>
        let r := lexAux fuel cs ln
        (.DIVIDE :: r.1, r.2)
    else if c = '\n' then
      -- t_newline : \n+
      let nls := cs.takeWhile (· = '\n')
      lexAux fuel (cs.dropWhile (· = '\n')) (ln + 1 + nls.length)
    else if c = '-' then
      match cs with
      | '>' :: rest =>
        let r := lexAux fuel rest ln
        (.ARROW :: r.1, r.2)
      | _ =>
        let r := lexAux fuel cs ln
        (.MINUS :: r.1, r.2)
    else if c = '+' then (let r := lexAux fuel cs ln; (.PLUS :: r.1, r.2))
    else if c = '*' then (let r := lexAux fuel cs ln; (.TIMES :: r.1, r.2))
    else if c = '(' then (let r := lexAux fuel cs ln; (.LPAREN :: r.1, r.2))
    else if c = ')' then (let r := lexAux fuel cs ln; (.RPAREN :: r.1, r.2))
    else if c = ';' then (let r := lexAux fuel cs ln; (.SEMI :: r.1, r.2))
    else if c = '=' then (let r := lexAux fuel cs ln; (.EQUALS :: r.1, r.2))
    else if c = ',' then (let r := lexAux fuel cs ln; (.COMMA :: r.1, r.2))
    else if c = '{' then (let r := lexAux fuel cs ln; (.LBRACE :: r.1, r.2))
    else if c = '}' then (let r := lexAux fuel cs ln; (.RBRACE :: r.1, r.2))
    else if c = '>' then (let r := lexAux fuel cs ln; (.GT :: r.1, r.2))
    else
      -- t_error: report character and line, skip one character, continue
      let r := lexAux fuel cs ln
      (r.1, ⟨c, ln⟩ :: r.2)

/-- Run the lexer on a whole source string (`lexer.input(data)` followed by
exhausting the token stream), starting at line 1. -/
def tokenize (s : String) : List Tok × List LexError :=
  lexAux s.length s.data 1

/-! ## AST (src/parser.py, class ASTNode)

`ASTNode(nodetype, children, leaf)` keeps an untyped child list whose
entries are either further nodes or bare Python lists (the parameter list
of a `function_decl` and the argument list of a `funccall`); `listNode`
embeds that second shape.  `leaf` is `None`, an identifier/operator/name
string, or a numeric token value. -/

/-- The possible `leaf` payloads of an ASTNode. -/
inductive Leaf where
  | str (s : String)
  | num (n : Int)
  | fnum (s : String)
deriving Repr, DecidableEq

/-- Python's `ASTNode`, with `listNode` embedding a bare Python list
appearing in a `children` slot. -/
inductive AST where
  | node (nodetype : String) (children : List AST) (leaf : Option Leaf)
  | listNode (items : List AST)
deriving Repr

/-- The `nodetype` attribute (a bare list has none). -/
def nodetypeOf : AST → String
  | .node t _ _ => t
  | .listNode _ => "<list>"

/-- The `children` attribute; on a bare list, its items. -/
def childrenOf : AST → List AST
  | .node _ cs _ => cs
  | .listNode l => l

/-- The `leaf` attribute. -/
def leafOf : AST → Option Leaf
  | .node _ _ l => l
  | .listNode _ => none

mutual

/-- Node count of an AST, used as a fuel bound dominating recursion
depth. -/
def astSize : AST → Nat
  | .node _ cs _ => 1 + astSizeList cs
  | .listNode l => 1 + astSizeList l

/-- Node count of a list of ASTs. -/
def astSizeList : List AST → Nat
  | [] => 0
  | a :: as => astSize a + astSizeList as

end

/-- How Python renders a leaf inside an f-string (`None` for a missing
leaf). -/
def leafName : Option Leaf → String
  | some (.str s) => s
  | some (.num n) => toString n
  | some (.fnum s) => s
  | none => "None"

/-! ## Parser (src/parser.py)

The grammar is handed to PLY's LALR generator with no precedence
declarations, so every shift/reduce conflict of the ambiguous rule
`expression : expression OP expression` is resolved in PLY's default
direction: shift.  On this grammar that makes the expression level behave
exactly like the right-recursive descent below (after an `expression OP
expression` prefix the parser always shifts the next operator instead of
reducing), while the statement level is conflict-free (an IDENTIFIER
followed by EQUALS can only open `p_statement_assignment`).  Note
`p_statement_if` has no `else` production: the rule is exactly
`IF LPAREN expression RPAREN LBRACE statement_list RBRACE`.
A failed parse models `parser.parse` returning `None` after `p_error`. -/

/-- The operators of `p_expression_binop`; the payload is the token value
PLY passes as `p[2]`. -/
def opLexeme : Tok → Option String
  | .PLUS => some "+"
  | .MINUS => some "-"
  | .TIMES => some "*"
  | .DIVIDE => some "/"
  | .GT => some ">"
  | _ => none

mutual

/-- `expression` under PLY's shift-preferring conflict resolution: an atom
followed, whenever the lookahead is an operator, by a shifted right
operand, i.e. the flat operator level associates to the right. -/
def parseExpression : Nat → List Tok → Except String (AST × List Tok)
  | 0, _ => .error "Syntax error: parser fuel exhausted"
  | fuel+1, ts => do
    let (a, ts') ← parseAtom fuel ts
    match ts' with
    | op :: rest =>
      match opLexeme op with
      | some o => do
        let (b, ts'') ← parseExpression fuel rest
        pure (.node "binary_op" [a, b] (some (.str o)), ts'')
      | none => pure (a, ts')
    | [] => pure (a, ts')

/-- The atomic expression alternatives: `p_expression_number`,
`p_expression_identifier`, `p_expression_funccall`,
`p_expression_group`. -/
def parseAtom : Nat → List Tok → Except String (AST × List Tok)
  | 0, _ => .error "Syntax error: parser fuel exhausted"
  | fuel+1, ts =>
    match ts with
    | .NUMBER n :: rest => pure (.node "number" [] (some (.num n)), rest)
    | .FNUMBER s :: rest => pure (.node "number" [] (some (.fnum s)), rest)
    | .IDENTIFIER x :: .LPAREN :: rest => do
      let (args, ts') ← parseArguments fuel rest
      match ts' with
      | .RPAREN :: ts'' => pure (.node "funccall" [.listNode args] (some (.str x)), ts'')
      | _ => .error "Syntax error: expected )"
    | .IDENTIFIER x :: rest => pure (.node "identifier" [] (some (.str x)), rest)
    | .LPAREN :: rest => do
      let (e, ts') ← parseExpression fuel rest
      match ts' with
      | .RPAREN :: ts'' => pure (e, ts'')
      | _ => .error "Syntax error: expected )"
    | _ => .error "Syntax error in expression"

/-- `argument_list : argument_list COMMA expression | expression | empty`. -/
def parseArguments : Nat → List Tok → Except String (List AST × List Tok)
  | 0, _ => .error "Syntax error: parser fuel exhausted"
  | fuel+1, ts =>
    match ts with
    | .RPAREN :: _ => pure ([], ts)
    | _ => do
      let (e, ts') ← parseExpression fuel ts
      parseArgumentsRest fuel [e] ts'

/-- The left-recursive tail of `argument_list`. -/
def parseArgumentsRest : Nat → List AST → List Tok → Except String (List AST × List Tok)
  | 0, _, _ => .error "Syntax error: parser fuel exhausted"
  | fuel+1, acc, ts =>
    match ts with
    | .COMMA :: rest => do
      let (e, ts') ← parseExpression fuel rest
      parseArgumentsRest fuel (acc ++ [e]) ts'
    | _ => pure (acc, ts)

end

/-- The left-recursive tail of `parameter_list`. -/
def parseParametersRest (acc : List AST) : List Tok → Except String (List AST × List Tok)
  | .COMMA :: .INT :: .IDENTIFIER x :: rest =>
    parseParametersRest (acc ++ [.node "param" [] (some (.str x))]) rest
  | .COMMA :: _ => .error "Syntax error in parameter list"
  | ts => pure (acc, ts)

/-- `parameter : INT IDENTIFIER`, starting `parameter_list` (or `empty`). -/
def parseParameters : List Tok → Except String (List AST × List Tok)
  | .INT :: .IDENTIFIER x :: rest => parseParametersRest [.node "param" [] (some (.str x))] rest
  | ts => pure ([], ts)

/-- Tokens in FIRST(statement): after a complete statement the LALR parser
shifts into a new one exactly when the lookahead can begin a statement. -/
def startsStatement : List Tok → Bool
  | .INT :: _ => true
  | .IDENTIFIER _ :: _ => true
  | .NUMBER _ :: _ => true
  | .FNUMBER _ :: _ => true
  | .LPAREN :: _ => true
  | .IF :: _ => true
  | .RETURN :: _ => true
  | .FUNCTION :: _ => true
  | _ => false

mutual

/-- One `statement` alternative of src/parser.py.  Note the `if` rule has
no else branch and always builds a two-child node
(`ASTNode("if", [cond, block])`). -/
def parseStatement : Nat → List Tok → Except String (AST × List Tok)
  | 0, _ => .error "Syntax error: parser fuel exhausted"
  | fuel+1, ts =>
    match ts with
    | .INT :: .IDENTIFIER x :: rest =>
      -- p_statement_declaration / p_declaration_rest_init / p_declaration_rest_noinit
      (match rest with
      | .EQUALS :: rest' => do
        let (e, ts') ← parseExpression fuel rest'
        match ts' with
        | .SEMI :: ts'' =>
          pure (.node "declaration" [.node "init" [e] none] (some (.str x)), ts'')
        | _ => .error "Syntax error: expected ;"
      | .SEMI :: rest' =>
        pure (.node "declaration" [.node "noinit" [] none] (some (.str x)), rest')
      | _ => .error "Syntax error in declaration")
    | .INT :: _ => .error "Syntax error after int"
    | .IDENTIFIER x :: .EQUALS :: rest => do
      -- p_statement_assignment
      let (e, ts') ← parseExpression fuel rest
      match ts' with
      | .SEMI :: ts'' =>
        pure (.node "assignment" [.node "identifier" [] (some (.str x)), e] none, ts'')
      | _ => .error "Syntax error: expected ;"
    | .IF :: .LPAREN :: rest => do
      -- p_statement_if
      let (c, ts1) ← parseExpression fuel rest
      match ts1 with
      | .RPAREN :: .LBRACE :: ts2 => do
        let (ss, ts3) ← parseStatementList fuel ts2
        match ts3 with
        | .RBRACE :: ts4 => pure (.node "if" [c, .node "block" ss none] none, ts4)
        | _ => .error "Syntax error: expected \x7d"
      | _ => .error "Syntax error in if"
    | .IF :: _ => .error "Syntax error in if"
    | .RETURN :: rest => do
      -- p_statement_return
      let (e, ts') ← parseExpression fuel rest
      match ts' with
      | .SEMI :: ts'' => pure (.node "return" [e] none, ts'')
      | _ => .error "Syntax error: expected ;"
    | .FUNCTION :: .IDENTIFIER f :: .LPAREN :: rest => do
      -- p_statement_function
      let (ps, ts1) ← parseParameters rest
      match ts1 with
      | .RPAREN :: .ARROW :: .INT :: .LBRACE :: ts2 => do
        let (ss, ts3) ← parseStatementList fuel ts2
        match ts3 with
        | .RBRACE :: ts4 =>
          pure (.node "function_decl"
            [.listNode ps, .node "return_type" [] (some (.str "int")), .node "block" ss none]
            (some (.str f)), ts4)
        | _ => .error "Syntax error: expected \x7d"
      | _ => .error "Syntax error in function declaration"
    | .FUNCTION :: _ => .error "Syntax error in function declaration"
    | _ => do
      -- p_statement_expr
      let (e, ts') ← parseExpression fuel ts
      match ts' with
      | .SEMI :: ts'' => pure (.node "expression_statement" [e] none, ts'')
      | _ => .error "Syntax error: expected ;"

/-- `statement_list : statement_list statement | statement` (at least one
statement, extended while the lookahead can begin a statement). -/
def parseStatementList : Nat → List Tok → Except String (List AST × List Tok)
  | 0, _ => .error "Syntax error: parser fuel exhausted"
  | fuel+1, ts => do
    let (s1, ts') ← parseStatement fuel ts
    parseStatementListRest fuel [s1] ts'

/-- The left-recursive tail of `statement_list`. -/
def parseStatementListRest : Nat → List AST → List Tok → Except String (List AST × List Tok)
  | 0, _, _ => .error "Syntax error: parser fuel exhausted"
  | fuel+1, acc, ts =>
    if startsStatement ts then do
      let (s1, ts') ← parseStatement fuel ts
      parseStatementListRest fuel (acc ++ [s1]) ts'
    else pure (acc, ts)

end

/-- `p_program`: the whole token stream must reduce to `statement_list`;
anything left over is a syntax error and the parse yields no AST. -/
def parseProgram (fuel : Nat) (ts : List Tok) : Except String AST := do
  let (ss, rest) ← parseStatementList fuel ts
  match rest with
  | [] => pure (.node "program" ss none)
  | _ => .error "Syntax error: unexpected token"

/-- `parser.parse(data)`: lex then parse.  The fuel bound dominates the
recursion depth on any input of this length. -/
def parse (src : String) : Except String AST :=
  parseProgram (2 * src.length + 8) (tokenize src).1

/-! ## Semantic analyzer (src/semantic.py)

A `SymbolTable` maps names to `{"initialized": bool}` and holds a parent
reference; the chain is embedded innermost-frame-first.  `semantic_check`
only prints diagnostics and mutates the chain (frames of outer tables may
be updated through `lookup`); it is embedded as a pure function returning
the updated chain and the printed diagnostics in order. -/

/-- One `SymbolTable.symbols` dict: name to initialized flag, in insertion
order. -/
abbrev Frame := List (String × Bool)

/-- The symbol-table chain, innermost frame first (the tail models the
`parent` references). -/
abbrev Chain := List Frame

/-- Dict membership lookup in one frame. -/
def lookupFrame : Frame → String → Option Bool
  | [], _ => none
  | (k, v) :: rest, name => if k = name then some v else lookupFrame rest name

/-- `SymbolTable.lookup`: the innermost frame containing the name wins. -/
def lookupChain : Chain → String → Option Bool
  | [], _ => none
  | fr :: rest, name =>
    match lookupFrame fr name with
    | some v => some v
    | none => lookupChain rest name

/-- `SymbolTable.add`: re-declaration in the same frame is diagnosed and
ignored, otherwise the name is inserted. -/
def frameAdd (fr : Frame) (name : String) (ini : Bool) : Frame × List String :=
  if (lookupFrame fr name).isSome then
    (fr, [s!"Semantic error: Symbol '{name}' already declared."])
  else (fr ++ [(name, ini)], [])

/-- `sym_table.add` on the chain's innermost frame. -/
def chainAdd (chain : Chain) (name : String) (ini : Bool) : Chain × List String :=
  match chain with
  | [] => ([], [])
  | fr :: rest =>
    let (fr', ds) := frameAdd fr name ini
    (fr' :: rest, ds)

/-- Set the flag in one frame (`symbol["initialized"] = True` once
`lookup` found the dict there). -/
def frameMark : Frame → String → Frame
  | [], _ => []
  | (k, v) :: rest, name =>
    if k = name then (k, true) :: rest else (k, v) :: frameMark rest name

/-- Mutate the innermost frame of the chain that contains the name. -/
def markInit : Chain → String → Chain
  | [], _ => []
  | fr :: rest, name =>
    if (lookupFrame fr name).isSome then frameMark fr name :: rest
    else fr :: markInit rest name

/-- `semantic_check(ast, sym_table)`, returning the updated chain and the
diagnostics printed, in order.  The dispatch cases and their bodies follow
src/semantic.py lines 21-98; node shapes the parser never produces (for
which Python would raise IndexError) fall through to the generic
recurse-into-children case. -/
def semCheck : Nat → Chain → AST → Chain × List String
  | 0, chain, _ => (chain, [])
  | fuel+1, chain, ast =>
    match ast with
    | .node "program" cs _ =>
      cs.foldl (fun (acc : Chain × List String) c =>
        let r := semCheck fuel acc.1 c
        (r.1, acc.2 ++ r.2)) (chain, [])
    | .node "block" cs _ =>
      -- new_table = SymbolTable(sym_table)
      let r := cs.foldl (fun (acc : Chain × List String) c =>
        let r := semCheck fuel acc.1 c
        (r.1, acc.2 ++ r.2)) (([] : Frame) :: chain, [])
      (r.1.tail, r.2)
    | .node "declaration" (initNode :: _) lf =>
      let var_name := leafName lf
      (match initNode with
      | .node "init" (e :: _) _ =>
        let (c1, d1) := chainAdd chain var_name true
        let r := semCheck fuel c1 e
        (r.1, d1 ++ r.2)
      | .node "noinit" _ _ =>
        (chain, [s!"Semantic error: Variable '{var_name}' is not initialized before use."])
      | _ => (chain, []))
    | .node "assignment" (idNode :: rhs :: _) _ =>
      let var_name := leafName (leafOf idNode)
      (match lookupChain chain var_name with
      | none =>
        let r := semCheck fuel chain rhs
        (r.1, s!"Semantic error: Variable '{var_name}' is not declared before assignment." :: r.2)
      | some _ =>
        let r := semCheck fuel (markInit chain var_name) rhs
        (r.1, r.2))
    | .node "identifier" _ lf =>
      let var_name := leafName lf
      (match lookupChain chain var_name with
      | some true => (chain, [])
      | _ => (chain, [s!"Semantic error: Variable '{var_name}' is not initialized before use."]))
    | .node "binary_op" (l :: r :: _) _ =>
      let r1 := semCheck fuel chain l
      let r2 := semCheck fuel r1.1 r
      (r2.1, r1.2 ++ r2.2)
    | .node "expression_statement" (e :: _) _ => semCheck fuel chain e
    | .node "if" (cond :: thenB :: _) _ =>
      let r1 := semCheck fuel chain cond
      -- new_table = SymbolTable(sym_table); the block child opens one more
      let r2 := semCheck fuel (([] : Frame) :: r1.1) thenB
      (r2.1.tail, r1.2 ++ r2.2)
    | .node "return" (e :: _) _ => semCheck fuel chain e
    | .node "function_decl" (plist :: _rt :: body :: _) lf =>
      let func_name := leafName lf
      let (c1, d1) := chainAdd chain func_name true
      let params := match plist with | .listNode l => l | _ => []
      let pr := params.foldl (fun (acc : Frame × List String) p =>
        let (fr', ds) := frameAdd acc.1 (leafName (leafOf p)) true
        (fr', acc.2 ++ ds)) (([] : Frame), [])
      let r := semCheck fuel (pr.1 :: c1) body
      (r.1.tail, d1 ++ pr.2 ++ r.2)
    | .node "init" (e :: _) _ => semCheck fuel chain e
    | .node "funccall" (argsNode :: _) _ =>
      let args := match argsNode with | .listNode l => l | _ => []
      args.foldl (fun (acc : Chain × List String) a =>
        let r := semCheck fuel acc.1 a
        (r.1, acc.2 ++ r.2)) (chain, [])
    | .node _ cs _ =>
      cs.foldl (fun (acc : Chain × List String) c =>
        let r := semCheck fuel acc.1 c
        (r.1, acc.2 ++ r.2)) (chain, [])
    | .listNode items =>
      items.foldl (fun (acc : Chain × List String) c =>
        let r := semCheck fuel acc.1 c
        (r.1, acc.2 ++ r.2)) (chain, [])

/-- `semantic_check(ast)` from a fresh `SymbolTable()`: the diagnostics it
prints.  The fuel dominates the AST depth. -/
def semantic_check (ast : AST) : List String :=
  (semCheck (astSize ast) [([] : Frame)] ast).2

/-! ## IR generator (src/ir_generator.py)

`IRGenerator` drives llvmlite: a module is a list of functions, each a
list of named basic blocks; the `IRBuilder` is a position (function index,
block index) appending at the block end.  Virtual registers are numbered
by a fresh counter (llvmlite's textual register names are cosmetic and not
inspected by any claim); block names are deduplicated per function the way
llvmlite's name scope does (`then`, `then.1`, ...).  Raised `ValueError`s
and llvmlite assertion failures are `Except.error` (src/main.py wraps the
whole generation in one `try`, so an error discards the partial module). -/

/-- An llvmlite value as used by the generator: an int constant, a float
constant (floats are lexically accepted but nonsensical downstream), an
instruction result, or a function argument `func.args[i]`. -/
inductive Value where
  | const (n : Int)
  | fconst (s : String)
  | reg (id : Nat)
  | arg (i : Nat)
deriving Repr, DecidableEq

/-- The IR instructions the generator emits. -/
inductive Instr where
  | alloca (res : Nat) (name : String)
  | store (v : Value) (ptr : Value)
  | load (res : Nat) (ptr : Value)
  | add (res : Nat) (l r : Value)
  | sub (res : Nat) (l r : Value)
  | mul (res : Nat) (l r : Value)
  | sdiv (res : Nat) (l r : Value)
  | icmpSgt (res : Nat) (l r : Value)
  | icmpNe (res : Nat) (l r : Value)
  | zext (res : Nat) (v : Value)
  | call (res : Nat) (callee : String) (args : List Value)
  | cbranch (cond : Value) (thenLabel elseLabel : String)
  | br (target : String)
  | ret (v : Value)
deriving Repr, DecidableEq

/-- Terminator instructions in llvmlite's sense. -/
def Instr.isTerminator : Instr → Bool
  | .cbranch .. => true
  | .br .. => true
  | .ret .. => true
  | _ => false

/-- Is the instruction a return? -/
def Instr.isRet : Instr → Bool
  | .ret .. => true
  | _ => false

/-- A named basic block. -/
structure BBlock where
  name : String
  instrs : List Instr
deriving Repr, DecidableEq

/-- llvmlite `Block.is_terminated`: the last instruction is a
terminator. -/
def BBlock.isTerminated (b : BBlock) : Bool :=
  match b.instrs.getLast? with
  | some i => i.isTerminator
  | none => false

/-- An llvmlite function: name, parameter count, blocks in append
order. -/
structure Func where
  name : String
  nparams : Nat
  blocks : List BBlock
deriving Repr, DecidableEq

/-- `IRBuilder` position: which function and block instructions are
appended to (`position_at_end` keeps the anchor at the block end). -/
structure Builder where
  fidx : Nat
  bidx : Nat
deriving Repr, DecidableEq

/-- The mutable fields of `IRGenerator`: the module, the variable
address map `symbol_table`, the declared-function table `functions`
(name to module index), the fresh register counter, and the builder. -/
structure GenState where
  module : List Func
  symbol_table : List (String × Value)
  functions : List (String × Nat)
  counter : Nat
  builder : Option Builder
deriving Repr, DecidableEq

/-- `IRGenerator.__init__`. -/
def initState : GenState :=
  { module := [], symbol_table := [], functions := [], counter := 0, builder := none }

/-- Replace the element at an index (no-op when out of range). -/
def updateAt : Nat → (α → α) → List α → List α
  | _, _, [] => []
  | 0, f, a :: as => f a :: as
  | n+1, f, a :: as => a :: updateAt n f as

/-- Python dict assignment `d[k] = v` on an association list. -/
def assocSet : List (String × α) → String → α → List (String × α)
  | [], k, v => [(k, v)]
  | (k', v') :: rest, k, v =>
    if k' = k then (k, v) :: rest else (k', v') :: assocSet rest k v

/-- Python dict lookup on an association list. -/
def assocGet : List (String × α) → String → Option α
  | [], _ => none
  | (k', v) :: rest, k => if k' = k then some v else assocGet rest k

/-- The block the builder is positioned at. -/
def GenState.currentBlock (s : GenState) : Option BBlock :=
  match s.builder with
  | none => none
  | some b =>
    match s.module[b.fidx]? with
    | none => none
    | some f => f.blocks[b.bidx]?

/-- The last instruction of the builder's block. -/
def GenState.currentLast (s : GenState) : Option Instr :=
  match s.currentBlock with
  | some b => b.instrs.getLast?
  | none => none

/-- Append an instruction at the end of the builder's block. -/
def appendCurrent (s : GenState) (i : Instr) : GenState :=
  match s.builder with
  | none => s
  | some b =>
    { s with module := updateAt b.fidx (fun f =>
        { f with blocks := updateAt b.bidx (fun bb =>
            { bb with instrs := bb.instrs ++ [i] }) f.blocks }) s.module }

/-- `IRBuilder._insert` for a non-terminator (`self.builder.<op>(...)`);
an absent builder is Python's AttributeError. -/
def emit (s : GenState) (i : Instr) : Except String GenState :=
  match s.builder with
  | none => .error "AttributeError: builder is None"
  | some _ => .ok (appendCurrent s i)

/-- `IRBuilder._set_terminator`: llvmlite asserts the block is not yet
terminated. -/
def emitTerm (s : GenState) (i : Instr) : Except String GenState :=
  match s.currentBlock with
  | none => .error "AttributeError: builder is None"
  | some b =>
    if b.isTerminated then .error "AssertionError: block is already terminated"
    else .ok (appendCurrent s i)

/-- Draw a fresh virtual-register id. -/
def freshReg (s : GenState) : GenState × Nat :=
  ({ s with counter := s.counter + 1 }, s.counter)

/-- Is a block name already used in the function? -/
def blockNameTaken (f : Func) (nm : String) : Bool :=
  f.blocks.any (·.name = nm)

/-- llvmlite name-scope suffix search: smallest `base.k`, k from 1, not yet
used. -/
def pickSuffix (f : Func) (base : String) : Nat → Nat → String
  | 0, k => base ++ "." ++ toString k
  | fuel+1, k =>
    let cand := base ++ "." ++ toString k
    if blockNameTaken f cand then pickSuffix f base fuel (k+1) else cand

/-- llvmlite's deduplication of block names within one function. -/
def freshBlockName (f : Func) (base : String) : String :=
  if blockNameTaken f base then pickSuffix f base f.blocks.length 1 else base

/-- `func.append_basic_block(name=base)`: append an empty block with a
deduplicated name, returning its index and final name. -/
def appendBlock (s : GenState) (fidx : Nat) (base : String) :
    Except String (GenState × Nat × String) :=
  match s.module[fidx]? with
  | none => .error "AttributeError: bad function"
  | some f =>
    let nm := freshBlockName f base
    let idx := f.blocks.length
    .ok ({ s with module := updateAt fidx (fun f =>
        { f with blocks := f.blocks ++ [⟨nm, []⟩] }) s.module }, idx, nm)

/-- `if not self.builder.block.is_terminated: self.builder.branch(target)`
as used at the end of each arm of `_generate_if`. -/
def branchIfNeeded (s : GenState) (target : String) : Except String GenState :=
  match s.currentBlock with
  | none => .error "AttributeError: builder is None"
  | some bb => if bb.isTerminated then .ok s else emitTerm s (.br target)

/-- `if not self.builder.block.is_terminated: self.builder.ret(Constant 0)`
as used at the end of `generate_ir` and `_generate_function_decl`. -/
def terminateIfNeeded (s : GenState) : Except String GenState :=
  match s.currentBlock with
  | none => .error "AttributeError: builder is None"
  | some bb => if bb.isTerminated then .ok s else emitTerm s (.ret (.const 0))

/-- `_generate_expression`: post-order lowering of an expression node,
returning the produced value.  Error strings are the `ValueError`
messages of src/ir_generator.py. -/
def genExpression : Nat → GenState → AST → Except String (GenState × Value)
  | 0, _, _ => .error "RecursionError: generator fuel exhausted"
  | fuel+1, s, ast =>
    match ast with
    | .node "number" _ lf =>
      (match lf with
      | some (.num n) => pure (s, .const n)
      | some (.fnum x) => pure (s, .fconst x)
      | some (.str x) => pure (s, .fconst x)
      | none => pure (s, .fconst "None"))
    | .node "identifier" _ lf =>
      let var_name := leafName lf
      (match assocGet s.symbol_table var_name with
      | some addr => do
        let (s, r) := freshReg s
        let s ← emit s (.load r addr)
        pure (s, .reg r)
      | none => .error s!"Variable {var_name} not in symbol table")
    | .node "binary_op" (l :: r :: _) lf => do
      let (s, lv) ← genExpression fuel s l
      let (s, rv) ← genExpression fuel s r
      let op := leafName lf
      if op = "+" then do
        let (s, t) := freshReg s
        let s ← emit s (.add t lv rv)
        pure (s, .reg t)
      else if op = "-" then do
        let (s, t) := freshReg s
        let s ← emit s (.sub t lv rv)
        pure (s, .reg t)
      else if op = "*" then do
        let (s, t) := freshReg s
        let s ← emit s (.mul t lv rv)
        pure (s, .reg t)
      else if op = "/" then do
        let (s, t) := freshReg s
        let s ← emit s (.sdiv t lv rv)
        pure (s, .reg t)
      else if op = ">" then do
        -- icmp_signed '>' then zext back to i32
        let (s, c) := freshReg s
        let s ← emit s (.icmpSgt c lv rv)
        let (s, z) := freshReg s
        let s ← emit s (.zext z (.reg c))
        pure (s, .reg z)
      else .error s!"Unknown binary operator: {op}"
    | .node "funccall" cs lf =>
      -- _generate_funccall
      let func_name := leafName lf
      (match assocGet s.functions func_name with
      | none => .error s!"Function {func_name} not declared"
      | some _ =>
        match cs with
        | .listNode args :: _ => do
          let acc ← args.foldlM (fun (acc : GenState × List Value) a => do
            let (s', v) ← genExpression fuel acc.1 a
            pure (s', acc.2 ++ [v])) (s, [])
          let (s, r) := freshReg acc.1
          let s ← emit s (.call r func_name acc.2)
          pure (s, .reg r)
        | _ => .error "TypeError: funccall arguments are not a list")
    | .node t _ _ => .error s!"Unknown expression node: {t}"
    | .listNode _ => .error "Unknown expression node: list"

/-- `_generate_statement` (and the bodies it dispatches to).  Statement
lists (`for stmt in ...`) are folds of this function at one lower fuel. -/
def genStatement : Nat → GenState → AST → Except String GenState
  | 0, _, _ => .error "RecursionError: generator fuel exhausted"
  | fuel+1, s, ast =>
    match ast with
    | .node "declaration" (initNode :: _) lf => do
      -- _generate_declaration: alloca, register the address, then store
      -- the initializer if present
      let var_name := leafName lf
      let (s, a) := freshReg s
      let s ← emit s (.alloca a var_name)
      let s := { s with symbol_table := assocSet s.symbol_table var_name (.reg a) }
      match initNode with
      | .node "init" (e :: _) _ => do
        let (s, v) ← genExpression fuel s e
        emit s (.store v (.reg a))
      | .node "init" [] _ => .error "IndexError: list index out of range"
      | _ => pure s
    | .node "assignment" (idNode :: rhs :: _) _ =>
      -- _generate_assignment
      let var_name := leafName (leafOf idNode)
      (match assocGet s.symbol_table var_name with
      | none => .error s!"Variable {var_name} not in symbol table"
      | some addr => do
        let (s, v) ← genExpression fuel s rhs
        emit s (.store v addr))
    | .node "expression_statement" (e :: _) _ => do
      let (s, _) ← genExpression fuel s e
      pure s
    | .node "if" (cond :: thenB :: rest2) _ => do
      -- _generate_if
      let (s, cv) ← genExpression fuel s cond
      let (s, c) := freshReg s
      let s ← emit s (.icmpNe c cv (.const 0))
      match s.builder with
      | none => .error "AttributeError: builder is None"
      | some b => do
        let (s, thenIdx, _thenName) ← appendBlock s b.fidx "then"
        let (s, elseIdx, _elseName) ← appendBlock s b.fidx "else"
        let (s, mergeIdx, mergeName) ← appendBlock s b.fidx "ifcont"
        let s ← emitTerm s (.cbranch (.reg c) _thenName _elseName)
        let s := { s with builder := some ⟨b.fidx, thenIdx⟩ }
        let s ← (childrenOf thenB).foldlM (genStatement fuel) s
        let s ← branchIfNeeded s mergeName
        let s := { s with builder := some ⟨b.fidx, elseIdx⟩ }
        let s ← (match rest2 with
          | elseB :: _ => (childrenOf elseB).foldlM (genStatement fuel) s
          | [] => pure s)
        let s ← branchIfNeeded s mergeName
        pure { s with builder := some ⟨b.fidx, mergeIdx⟩ }
    | .node "return" cs _ =>
      -- _generate_return
      (match cs with
      | e :: _ => do
        let (s, v) ← genExpression fuel s e
        emitTerm s (.ret v)
      | [] => emitTerm s (.ret (.const 0)))
    | .node "function_decl" (plist :: _rt :: body :: _) lf =>
      -- _generate_function_decl
      let func_name := leafName lf
      (match plist with
      | .listNode params => do
        let old_builder := s.builder
        let old_symbol_table := s.symbol_table
        let fidx := s.module.length
        let s := { s with module := s.module ++ [(⟨func_name, params.length, []⟩ : Func)] }
        let s := { s with functions := assocSet s.functions func_name fidx }
        let (s, entryIdx, _) ← appendBlock s fidx "entry"
        let s := { s with builder := some ⟨fidx, entryIdx⟩, symbol_table := [] }
        let s ← params.enum.foldlM (fun (st : GenState) (p : Nat × AST) => do
          let param_name := leafName (leafOf p.2)
          let (st, a) := freshReg st
          let st ← emit st (.alloca a param_name)
          let st ← emit st (.store (.arg p.1) (.reg a))
          pure { st with symbol_table := assocSet st.symbol_table param_name (.reg a) }) s
        let s ← (childrenOf body).foldlM (genStatement fuel) s
        let s ← terminateIfNeeded s
        pure { s with symbol_table := old_symbol_table, builder := old_builder }
      | _ => .error "TypeError: parameter list is not a list")
    | .node t _ _ => .error s!"Unknown statement type: {t}"
    | .listNode _ => .error "Unknown statement type: list"

/-- A `for stmt in ...: self._generate_statement(stmt)` loop. -/
def genStmtList (fuel : Nat) (s : GenState) (stmts : List AST) : Except String GenState :=
  stmts.foldlM (genStatement fuel) s

/-- `generate_ir`, keeping the whole final generator state: create `main`,
lower every top-level statement into it, then append the implicit
`ret i32 0` if the insertion block is unterminated. -/
def generateIr (fuel : Nat) (ast : AST) : Except String GenState :=
  match ast with
  | .node "program" stmts _ => do
    let s := initState
    let s := { s with module := [⟨"main", 0, []⟩] }
    let (s, entryIdx, _) ← appendBlock s 0 "entry"
    let s := { s with builder := some ⟨0, entryIdx⟩ }
    let s ← genStmtList fuel s stmts
    terminateIfNeeded s
  | .node t _ _ => .error s!"Expected program node, got {t}"
  | .listNode _ => .error "Expected program node, got list"

/-- `generate_ir(ast)` returning `self.module`.  The fuel dominates the
AST depth. -/
def generate_ir (ast : AST) : Except String (List Func) :=
  (generateIr (astSize ast + 1) ast).map (·.module)

/-- The function's flat instruction sequence: its blocks in append (and
serialization) order, concatenated. -/
def flatInstrs (f : Func) : List Instr :=
  (f.blocks.map (·.instrs)).flatten

/-! ## Assembly backend (src/assembly_generator.py)

`parse_allocas` and `ir_to_asm` are regex dispatchers over the textual IR
lines.  Each regex of the source is embedded as a hand-written prefix
matcher with identical semantics (`re.match` anchors at the start and
allows trailing text; `\w` is `[A-Za-z0-9_]`, `[\w\.]` adds the dot;
`\"?` is one optional double quote).  Python `str.strip`/`rstrip`/`split`
are modelled below; a `KeyError` on `var_offsets[var]` is an
`Except.error`. -/

/-- Python whitespace (`\s` and the `str.strip` default set). -/
def pyWsChar (c : Char) : Bool :=
  c = ' ' || c = '\t' || c = '\n' || c = '\r' || c = '\x0b' || c = '\x0c'

/-- `\s*`. -/
def dropWs (cs : List Char) : List Char := cs.dropWhile pyWsChar

/-- `str.rstrip()`. -/
def pyRstrip (s : String) : String :=
  ⟨(s.data.reverse.dropWhile pyWsChar).reverse⟩

/-- `str.strip()`. -/
def pyStrip (s : String) : String :=
  ⟨((s.data.dropWhile pyWsChar).reverse.dropWhile pyWsChar).reverse⟩

/-- `str.split()` with no argument: split on whitespace runs, dropping
empty pieces. -/
def splitWsGo : List Char → List Char → List String
  | [], cur => if cur.isEmpty then [] else [⟨cur.reverse⟩]
  | c :: cs, cur =>
    if pyWsChar c then
      if cur.isEmpty then splitWsGo cs [] else ⟨cur.reverse⟩ :: splitWsGo cs []
    else splitWsGo cs (c :: cur)

/-- `str.split()` with no argument. -/
def pySplitWs (s : String) : List String := splitWsGo s.data []

/-- Match a literal regex fragment, returning the rest. -/
def litPrefix : List Char → List Char → Option (List Char)
  | [], cs => some cs
  | _ :: _, [] => none
  | p :: ps, c :: cs => if c = p then litPrefix ps cs else none

/-- `\"?`: one optional double quote. -/
def optQuote : List Char → List Char
  | c :: cs => if c = '"' then cs else c :: cs
  | [] => []

/-- A `+`-quantified character class: at least one matching character,
maximal munch. -/
def span1 (p : Char → Bool) (cs : List Char) : Option (List Char × List Char) :=
  let tk := cs.takeWhile p
  if tk.isEmpty then none else some (tk, cs.dropWhile p)

/-- `[\w\.]`. -/
def isWordDot (c : Char) : Bool := isWordChar c || c = '.'

/-- Substring containment (`pat in line`). -/
def containsSub (pat : List Char) : List Char → Bool
  | [] => pat.isEmpty
  | c :: cs => pat.isPrefixOf (c :: cs) || containsSub pat cs

/-- Python `pat in s`. -/
def strContains (s pat : String) : Bool := containsSub pat.data s.data

/-- Python `s.startswith(pre)`. -/
def strStartsWith (s pre : String) : Bool := pre.data.isPrefixOf s.data

/-- `args.split(",")`: split on every comma, keeping empty pieces (and
yielding one empty piece on empty input, as Python does). -/
def splitCommaGo : List Char → List Char → List String
  | [], cur => [⟨cur.reverse⟩]
  | c :: cs, cur =>
    if c = ',' then ⟨cur.reverse⟩ :: splitCommaGo cs []
    else splitCommaGo cs (c :: cur)

/-- `args.split(",")`. -/
def pySplitComma (s : String) : List String := splitCommaGo s.data []

/-- `\s*%\"?([\w\.]+)\"? = alloca i32`. -/
def matchAlloca (cs : List Char) : Option String := do
  let r1 ← litPrefix "%".data (dropWs cs)
  let (nm, r2) ← span1 isWordDot (optQuote r1)
  let _ ← litPrefix " = alloca i32".data (optQuote r2)
  some ⟨nm⟩

/-- `.*\)\s*{` after the opening parenthesis of a define line: some `)`
followed by optional whitespace and `{`. -/
def hasParenBrace : List Char → Bool
  | [] => false
  | ')' :: rest =>
    (match dropWs rest with
     | '{' :: _ => true
     | _ => hasParenBrace rest)
  | _ :: rest => hasParenBrace rest

/-- `\s*define i32 @"?([\w_]+)"?\(.*\)\s*{`. -/
def matchDefine (cs : List Char) : Option String := do
  let r1 ← litPrefix "define i32 @".data (dropWs cs)
  let (nm, r2) ← span1 isWordChar (optQuote r1)
  let r3 ← litPrefix "(".data (optQuote r2)
  if hasParenBrace r3 then some ⟨nm⟩ else none

/-- `\s*store i32 (\d+), i32\* %\"?([\w\.]+)\"?`. -/
def matchStoreImm (cs : List Char) : Option (String × String) := do
  let r1 ← litPrefix "store i32 ".data (dropWs cs)
  let (ds, r2) ← span1 Char.isDigit r1
  let r3 ← litPrefix ", i32* %".data r2
  let (nm, _) ← span1 isWordDot (optQuote r3)
  some (⟨ds⟩, ⟨nm⟩)

/-- `\s*store i32 %\w+, i32\* %\"?([\w\.]+)\"?`. -/
def matchStoreReg (cs : List Char) : Option String := do
  let r1 ← litPrefix "store i32 %".data (dropWs cs)
  let (_, r2) ← span1 isWordChar r1
  let r3 ← litPrefix ", i32* %".data r2
  let (nm, _) ← span1 isWordDot (optQuote r3)
  some ⟨nm⟩

/-- `\s*%(\w+) = load i32, i32\* %\"?([\w\.]+)\"?`. -/
def matchLoad (cs : List Char) : Option String := do
  let r1 ← litPrefix "%".data (dropWs cs)
  let (_, r2) ← span1 isWordChar r1
  let r3 ← litPrefix " = load i32, i32* %".data r2
  let (nm, _) ← span1 isWordDot (optQuote r3)
  some ⟨nm⟩

/-- The content captured by a final greedy `(.*)\)`: everything before the
last closing parenthesis. -/
def beforeLastRParen (cs : List Char) : Option (List Char) :=
  match cs.reverse.dropWhile (· ≠ ')') with
  | ')' :: rest => some rest.reverse
  | _ => none

/-- `\s*%(\w+) = call i32 @"?([\w_]+)"?\((.*)\)`. -/
def matchCallLine (cs : List Char) : Option (String × String) := do
  let r1 ← litPrefix "%".data (dropWs cs)
  let (_, r2) ← span1 isWordChar r1
  let r3 ← litPrefix " = call i32 @".data r2
  let (fn, r4) ← span1 isWordChar (optQuote r3)
  let r5 ← litPrefix "(".data (optQuote r4)
  let args ← beforeLastRParen r5
  some (⟨fn⟩, ⟨args⟩)

/-- `\s*%\w+ = icmp sgt i32 %\w+, (\d+)`. -/
def matchIcmpSgt (cs : List Char) : Option String := do
  let r1 ← litPrefix "%".data (dropWs cs)
  let (_, r2) ← span1 isWordChar r1
  let r3 ← litPrefix " = icmp sgt i32 %".data r2
  let (_, r4) ← span1 isWordChar r3
  let r5 ← litPrefix ", ".data r4
  let (ds, _) ← span1 Char.isDigit r5
  some ⟨ds⟩

/-- `\s*br label %\"?([\w\.]+)\"?`. -/
def matchBrLabel (cs : List Char) : Option String := do
  let r1 ← litPrefix "br label %".data (dropWs cs)
  let (nm, _) ← span1 isWordDot (optQuote r1)
  some ⟨nm⟩

/-- `\s*([\w\.]+):`. -/
def matchLabelDef (cs : List Char) : Option String := do
  let (nm, r1) ← span1 isWordDot (dropWs cs)
  let _ ← litPrefix ":".data r1
  some ⟨nm⟩

/-- `\s*ret i32 (\d+)`. -/
def matchRetImm (cs : List Char) : Option String := do
  let r1 ← litPrefix "ret i32 ".data (dropWs cs)
  let (ds, _) ← span1 Char.isDigit r1
  some ⟨ds⟩

/-- One iteration of `parse_allocas`'s loop: a matching alloca line binds
its variable to the running offset and decrements it by 8. -/
def allocaStep (acc : List (String × Int) × Int) (line : String) :
    List (String × Int) × Int :=
  match matchAlloca line.data with
  | some var => (assocSet acc.1 var acc.2, acc.2 - 8)
  | none => acc

/-- `parse_allocas(ir_lines)`: one insertion-ordered dict over the whole
input, every matching alloca line (in any function) getting the next
offset of -8, -16, -24, ... -/
def parse_allocas (ir_lines : List String) : List (String × Int) :=
  (ir_lines.foldl allocaStep ([], -8)).1

/-- Python's `{ofs:+}` format: an explicit sign even for 0. -/
def fmtPlus (i : Int) : String :=
  if i < 0 then toString i else "+" ++ toString i

/-- `min(values, default=0)`. -/
def minValues : List Int → Int
  | [] => 0
  | v :: vs => vs.foldl min v

/-- The `for i, part in enumerate(parts)` loop of the call branch: only
the parts at indices 0 and 1 that start with `"i32 "` produce a register
load (into edi resp. esi), everything else is passed over; the offset
lookup key is the second whitespace-separated word of the part (which
still carries its `%` prefix, so the `.get(reg, 0)` default of 0 is what
is actually used). -/
def callMoves (var_offsets : List (String × Int)) : List String → Nat → Except String (List String)
  | [], _ => .ok []
  | part :: rest, i =>
    if strStartsWith part "i32 " then
      match pySplitWs part with
      | _ :: reg :: _ => do
        let tailMoves ← callMoves var_offsets rest (i+1)
        let ofs := (assocGet var_offsets reg).getD 0
        if i = 0 then
          .ok (("    mov     edi, DWORD [rbp" ++ fmtPlus ofs ++ "]") :: tailMoves)
        else if i = 1 then
          .ok (("    mov     esi, DWORD [rbp" ++ fmtPlus ofs ++ "]") :: tailMoves)
        else .ok tailMoves
      | _ => .error "IndexError: list index out of range"
    else callMoves var_offsets rest (i+1)

/-- The body of `ir_to_asm`'s per-line loop: every branch in source order,
emitting the assembly lines that iteration appends. -/
def processLine (var_offsets : List (String × Int)) (rawLine : String) :
    Except String (List String) :=
  let line := pyRstrip rawLine
  if strStartsWith line "target" || strStartsWith line ";" then .ok []
  else match matchDefine line.data with
  | some func =>
    .ok ["\n" ++ func ++ ":", "    push    rbp", "    mov     rbp, rsp",
         "    sub     rsp, " ++ toString (-(minValues (var_offsets.map (·.2))))]
  | none =>
  if pyStrip line = "\x7d" then .ok ["    leave", "    ret"]
  else if strContains line "alloca i32" then .ok []
  else match matchStoreImm line.data with
  | some (val, var) =>
    (match assocGet var_offsets var with
    | some ofs => .ok ["    mov     DWORD [rbp" ++ fmtPlus ofs ++ "], " ++ val]
    | none => .error ("KeyError: " ++ var))
  | none =>
  match matchStoreReg line.data with
  | some var =>
    (match assocGet var_offsets var with
    | some ofs => .ok ["    mov     [rbp" ++ fmtPlus ofs ++ "], eax"]
    | none => .error ("KeyError: " ++ var))
  | none =>
  match matchLoad line.data with
  | some var =>
    (match assocGet var_offsets var with
    | some ofs => .ok ["    mov     eax, DWORD [rbp" ++ fmtPlus ofs ++ "]"]
    | none => .error ("KeyError: " ++ var))
  | none =>
  match matchCallLine line.data with
  | some (func, args) => do
    let parts := (pySplitComma args).map pyStrip
    let moves ← callMoves var_offsets parts 0
    .ok (moves ++ ["    call    " ++ func, "    mov     eax, eax"])
  | none =>
  if strContains line " = add i32 " then .ok ["    pop     rbx", "    add     eax, rbx"]
  else if strContains line " = sub i32 " then
    .ok ["    pop     rbx", "    sub     rbx, eax", "    mov     eax, rbx"]
  else if strContains line " = mul i32 " then .ok ["    imul    eax, ebx"]
  else if strContains line " = sdiv i32 " then .ok ["    cqo", "    idiv    ebx"]
  else match matchIcmpSgt line.data with
  | some val => .ok ["    cmp     eax, " ++ val, "    setg    al", "    movzx   eax, al"]
  | none =>
  if strContains line " = icmp ne i32 " then
    .ok ["    cmp     eax, 0", "    setne   al", "    movzx   eax, al"]
  else if strStartsWith (pyStrip line) "br i1" then
    .ok ["    cmp     al, 0", "    je      else", "    jmp     then"]
  else match matchBrLabel line.data with
  | some lbl => .ok ["    jmp     " ++ lbl]
  | none =>
  match matchLabelDef line.data with
  | some lbl => .ok [lbl ++ ":"]
  | none =>
  match matchRetImm line.data with
  | some val => .ok ["    mov     eax, " ++ val, "    leave", "    ret"]
  | none =>
  if strContains line "ret i32 %" then .ok ["    ; return in eax", "    leave", "    ret"]
  else if pyStrip line ≠ "" then .ok ["    ; unhandled IR: " ++ line]
  else .ok []

/-- `ir_to_asm(ir_lines, var_offsets)` as the list of assembly lines it
accumulates (the source joins them with newlines at the end). -/
def ir_to_asm_lines (ir_lines : List String) (var_offsets : List (String × Int)) :
    Except String (List String) := do
  let chunks ← ir_lines.mapM (processLine var_offsets)
  pure (["section .text", "global main"] ++ chunks.flatten)

/-- `ir_to_asm(ir_lines, var_offsets)`: the joined assembly text. -/
def ir_to_asm (ir_lines : List String) (var_offsets : List (String × Int)) :
    Except String String :=
  (ir_to_asm_lines ir_lines var_offsets).map (fun l => String.intercalate "\n" l)

/-! ## Concrete programs and auxiliary shapes used by the claim theorems -/

/-- The type of the first child of the outer binary_op of a single
expression-statement program. -/
def binopLeftType (r : Except String AST) : Option String :=
  match r with
  | .ok (.node "program"
      (.node "expression_statement"
        (.node "binary_op" (l :: _) _ :: _) _ :: _) _) => some (nodetypeOf l)
  | _ => none

/-- The generator state right after `generate_ir` has created `main` with
its empty `entry` block and positioned the builder there. -/
def setupState : GenState :=
  { module := [⟨"main", 0, [⟨"entry", []⟩]⟩], symbol_table := [], functions := [],
    counter := 0, builder := some ⟨0, 0⟩ }

/-- A program whose first function's body calls the undeclared `g` and
whose second function is perfectly fine (the parse of
`function f() -> int { return g(); } function h() -> int { return 0; }`). -/
def c4prog : AST :=
  .node "program"
    [.node "function_decl"
      [.listNode [], .node "return_type" [] (some (.str "int")),
       .node "block" [.node "return"
         [.node "funccall" [.listNode []] (some (.str "g"))] none] none]
      (some (.str "f")),
     .node "function_decl"
      [.listNode [], .node "return_type" [] (some (.str "int")),
       .node "block" [.node "return" [.node "number" [] (some (.num 0))] none] none]
      (some (.str "h"))]
    none

/-- Statement causing the lowering error used in claim C4's witness. -/
def gcallStmt : AST :=
  .node "expression_statement" [.node "funccall" [.listNode []] (some (.str "g"))] none

/-- A nested-if program: the parse of
`int a = 1; int b = 1; int x = 0; if (a) { if (b) { x = 1; } }`. -/
def c7prog : AST :=
  .node "program"
    [.node "declaration" [.node "init" [.node "number" [] (some (.num 1))] none]
      (some (.str "a")),
     .node "declaration" [.node "init" [.node "number" [] (some (.num 1))] none]
      (some (.str "b")),
     .node "declaration" [.node "init" [.node "number" [] (some (.num 0))] none]
      (some (.str "x")),
     .node "if"
      [.node "identifier" [] (some (.str "a")),
       .node "block"
         [.node "if"
           [.node "identifier" [] (some (.str "b")),
            .node "block"
              [.node "assignment"
                [.node "identifier" [] (some (.str "x")),
                 .node "number" [] (some (.num 1))] none] none] none] none] none]
    none

/-- An empty parameterless function declaration. -/
def fdecl0 : AST :=
  .node "function_decl"
    [.listNode [], .node "return_type" [] (some (.str "int")), .node "block" [] none]
    (some (.str "f"))

/-- The generator state after lowering `fdecl0` from `setupState`. -/
def c10result : GenState :=
  { module := [⟨"main", 0, [⟨"entry", []⟩]⟩,
               ⟨"f", 0, [⟨"entry", [.ret (.const 0)]⟩]⟩],
    symbol_table := [], functions := [("f", 1)], counter := 0,
    builder := some ⟨0, 0⟩ }

/-- The offsets the amended claim C9 says `parse_allocas` assigns: the
names in order of appearance, bound to `ofs`, `ofs - 8`, `ofs - 16`, ... -/
def offsetsFrom (ofs : Int) : List String → List (String × Int)
  | [] => []
  | nm :: rest => (nm, ofs) :: offsetsFrom (ofs - 8) rest

/-- The IR lines of a two-function module with two allocas each, brace
placed so the backend's function-start pattern applies. -/
def c9lines : List String :=
  ["define i32 @main() \x7b", "  %a = alloca i32", "  %b = alloca i32", "\x7d",
   "define i32 @sum() \x7b", "  %x = alloca i32", "  %y = alloca i32", "\x7d"]

/-! ## Theorems for the claims -/

/-- Marking a present name initialized makes its innermost lookup true. -/
theorem lookupFrame_frameMark :
    ∀ (fr : Frame) (name : String) (v : Bool),
    lookupFrame fr name = some v → lookupFrame (frameMark fr name) name = some true := by
  intro fr name v h
  induction fr with
  | nil => simp [lookupFrame] at h
  | cons kv rest ih =>
    obtain ⟨k, w⟩ := kv
    by_cases hk : k = name
    · subst hk
      simp [lookupFrame, frameMark]
    · simp only [lookupFrame, frameMark, hk, if_false, if_neg hk] at h ⊢
      exact ih h

set_option maxHeartbeats 1000000 in
/-- Claim C8: a declaration without an initializer is diagnosed as
"not initialized" at the declaration itself (and the chain is untouched);
an assignment whose target resolves nowhere in the chain adds exactly the
"not declared before assignment" diagnostic in front of the right-hand
side's diagnostics; an assignment to a resolvable name adds no diagnostic
of its own and marks the name initialized at the frame where it lives; and
the analyzer is a total function that only returns a chain and collected
diagnostics — it never aborts. -/
theorem claim8_semantic_analyzer :
    (∀ (fuel : Nat) (chain : Chain) (name : String),
      semCheck (fuel+1) chain
          (.node "declaration" [.node "noinit" [] none] (some (.str name))) =
        (chain, [s!"Semantic error: Variable '{name}' is not initialized before use."])) ∧
    (∀ (fuel : Nat) (chain : Chain) (name : String) (rhs : AST),
      lookupChain chain name = none →
      semCheck (fuel+1) chain
          (.node "assignment" [.node "identifier" [] (some (.str name)), rhs] none) =
        ((semCheck fuel chain rhs).1,
         s!"Semantic error: Variable '{name}' is not declared before assignment." ::
           (semCheck fuel chain rhs).2)) ∧
    (∀ (fuel : Nat) (chain : Chain) (name : String) (b : Bool) (rhs : AST),
      lookupChain chain name = some b →
      semCheck (fuel+1) chain
          (.node "assignment" [.node "identifier" [] (some (.str name)), rhs] none) =
        semCheck fuel (markInit chain name) rhs) ∧
    (∀ (chain : Chain) (name : String) (b : Bool),
      lookupChain chain name = some b →
      lookupChain (markInit chain name) name = some true) := by
  refine ⟨fun fuel chain name => ?_, ?_, ?_, ?_⟩
  · rw [semCheck]
    simp only [leafName]
  · intro fuel chain name rhs h
    rw [semCheck]
    simp only [leafOf, leafName, h]
  · intro fuel chain name b rhs h
    rw [semCheck]
    simp only [leafOf, leafName, h]
  · intro chain name b h
    induction chain with
    | nil => simp [lookupChain] at h
    | cons fr rest ih =>
      cases hf : lookupFrame fr name with
      | some v =>
        simp only [markInit, hf, Option.isSome_some, if_true, lookupChain,
          lookupFrame_frameMark fr name v hf]
      | none =>
        simp only [lookupChain, hf] at h
        simp only [markInit, hf, Option.isSome_none, Bool.false_eq_true, if_false,
          lookupChain]
        exact ih h

/-- Witness for claim C8 on a fresh single-frame chain. -/
theorem claim8_witness :
    semCheck 2 [([] : Frame)]
        (.node "declaration" [.node "noinit" [] none] (some (.str "z"))) =
      ([([] : Frame)], ["Semantic error: Variable 'z' is not initialized before use."]) ∧
    lookupChain [([] : Frame)] "z" = none ∧
    semCheck 2 [([] : Frame)]
        (.node "assignment" [.node "identifier" [] (some (.str "z")),
          .node "number" [] (some (.num 50))] none) =
      ([([] : Frame)], ["Semantic error: Variable 'z' is not declared before assignment."]) ∧
    lookupChain [[("a", false)]] "a" = some false ∧
    semCheck 2 [[("a", false)]]
        (.node "assignment" [.node "identifier" [] (some (.str "a")),
          .node "number" [] (some (.num 50))] none) =
      semCheck 1 (markInit [[("a", false)]] "a") (.node "number" [] (some (.num 50))) ∧
    lookupChain (markInit [[("a", false)]] "a") "a" = some true :=
  ⟨claim8_semantic_analyzer.1 1 [([] : Frame)] "z",
   rfl,
   claim8_semantic_analyzer.2.1 1 [([] : Frame)] "z" (.node "number" [] (some (.num 50))) rfl,
   rfl,
   claim8_semantic_analyzer.2.2.1 1 [[("a", false)]] "a" false
     (.node "number" [] (some (.num 50))) rfl,
   claim8_semantic_analyzer.2.2.2 [[("a", false)]] "a" false rfl⟩

/-- Claim C1 (code defect): on a `br i1` line the backend emits `je else`
and `jmp then` with those literal label names, no matter which label
operands the instruction carries; the actual operands `then7`/`else7`
appear nowhere in the output.  The claim (and spec section 4.5) demands
the instruction's actual operands, which spec section 9 itself records as
the defect to eliminate. -/
theorem claim1_cond_branch_hardcodes_labels :
    ir_to_asm_lines ["br i1 %ifcond, label %then7, label %else7"] [] =
      .ok ["section .text", "global main",
           "    cmp     al, 0", "    je      else", "    jmp     then"] ∧
    (ir_to_asm_lines ["br i1 %ifcond, label %then7, label %else7"] []).map
        (fun ls => ls.any (fun l => strContains l "then7" || strContains l "else7")) =
      .ok false :=
  ⟨rfl, rfl⟩

/-- Claim C2 (code defect): the grammar of src/parser.py has no `else`
production at all — `if (1) { return 1; } else { return 0; }` is a syntax
error even though the lexer reserves the `else` keyword and the IR
generator has a dead branch for three-child `if` nodes — while a plain
`if` always yields a two-child node. -/
theorem claim2_no_else_production :
    parse "if (1) \x7b return 1; \x7d else \x7b return 0; \x7d" =
      .error "Syntax error: unexpected token" ∧
    Tok.ELSE ∈ (tokenize "if (1) \x7b return 1; \x7d else \x7b return 0; \x7d").1 ∧
    parse "if (1) \x7b return 1; \x7d" =
      .ok (.node "program"
        [.node "if" [.node "number" [] (some (.num 1)),
          .node "block" [.node "return" [.node "number" [] (some (.num 1))] none] none] none]
        none) :=
  ⟨rfl, by decide, rfl⟩

/-- Claim C3 counterexample: `a - b - c` parses with the *right* operand
of the outer `binary_op` being the nested `binary_op` over `b` and `c`;
the left operand is the bare identifier `a`, not the claimed
`binary_op` over the first two operands. -/
theorem claim3_counterexample :
    parse "a - b - c;" =
      .ok (.node "program" [.node "expression_statement"
        [.node "binary_op"
          [.node "identifier" [] (some (.str "a")),
           .node "binary_op"
             [.node "identifier" [] (some (.str "b")),
              .node "identifier" [] (some (.str "c"))] (some (.str "-"))]
          (some (.str "-"))] none] none) ∧
    binopLeftType (parse "a - b - c;") = some "identifier" ∧
    some "identifier" ≠ some "binary_op" :=
  ⟨rfl, rfl, by decide⟩

/-- Inversion of `opLexeme`. -/
theorem opLexeme_cases {t : Tok} {o : String} (h : opLexeme t = some o) :
    t = .PLUS ∧ o = "+" ∨ t = .MINUS ∧ o = "-" ∨ t = .TIMES ∧ o = "*" ∨
    t = .DIVIDE ∧ o = "/" ∨ t = .GT ∧ o = ">" := by
  cases t <;> simp [opLexeme] at h <;> simp [h]

/-- Claim C3 as amended: the flat operator level of the grammar is
*right*-associative, because PLY resolves every shift/reduce conflict of
`expression : expression OP expression` by shifting.  Chaining any two
operators without parentheses yields the tree whose *right* operand is
the `binary_op` over the last two operands: `a + b * c` parses as
`a + (b * c)` and `a - b - c` as `a - (b - c)`. -/
theorem claim3_right_associative :
    ∀ (n : Nat) (t1 t2 : Tok) (o1 o2 : String),
    opLexeme t1 = some o1 → opLexeme t2 = some o2 →
    parseExpression (n+5)
        [.IDENTIFIER "a", t1, .IDENTIFIER "b", t2, .IDENTIFIER "c"] =
      .ok (.node "binary_op"
        [.node "identifier" [] (some (.str "a")),
         .node "binary_op"
           [.node "identifier" [] (some (.str "b")),
            .node "identifier" [] (some (.str "c"))] (some (.str o2))]
        (some (.str o1)), []) := by
  intro n t1 t2 o1 o2 h1 h2
  rcases opLexeme_cases h1 with ⟨rfl, rfl⟩ | ⟨rfl, rfl⟩ | ⟨rfl, rfl⟩ | ⟨rfl, rfl⟩ | ⟨rfl, rfl⟩ <;>
    rcases opLexeme_cases h2 with ⟨rfl, rfl⟩ | ⟨rfl, rfl⟩ | ⟨rfl, rfl⟩ | ⟨rfl, rfl⟩ | ⟨rfl, rfl⟩ <;>
    rfl

/-- Witness for the amended claim C3 at `a + b * c`. -/
theorem claim3_witness :
    opLexeme Tok.PLUS = some "+" ∧ opLexeme Tok.TIMES = some "*" ∧
    parseExpression 5
        [.IDENTIFIER "a", .PLUS, .IDENTIFIER "b", .TIMES, .IDENTIFIER "c"] =
      .ok (.node "binary_op"
        [.node "identifier" [] (some (.str "a")),
         .node "binary_op"
           [.node "identifier" [] (some (.str "b")),
            .node "identifier" [] (some (.str "c"))] (some (.str "*"))]
        (some (.str "+")), []) :=
  ⟨rfl, rfl, claim3_right_associative 0 .PLUS .TIMES "+" "*" rfl rfl⟩

/-- Claim C6: hitting a character no lexer rule matches emits exactly one
diagnostic carrying that character and the current line, skips exactly
that one character, and lexing continues on the rest with the same line
number — so on the spec's example every valid token surrounding the stray
`@` still appears, with exactly one diagnostic. -/
theorem claim6_lexer_recovery :
    (∀ (n : Nat) (cs : List Char) (ln : Nat) (c : Char),
      isLegalStart c = false →
      lexAux (n+1) (c :: cs) ln =
        ((lexAux n cs ln).1, ⟨c, ln⟩ :: (lexAux n cs ln).2)) ∧
    tokenize "int a = 4; @ int b = 3;" =
      ([.INT, .IDENTIFIER "a", .EQUALS, .NUMBER 4, .SEMI,
        .INT, .IDENTIFIER "b", .EQUALS, .NUMBER 3, .SEMI],
       [⟨'@', 1⟩]) := by
  constructor
  · intro n cs ln c h
    simp only [isLegalStart, Bool.or_eq_false_iff, decide_eq_false_iff_not] at h
    obtain ⟨⟨⟨⟨⟨⟨⟨⟨⟨⟨⟨⟨⟨⟨⟨⟨⟨h1, h2⟩, h3⟩, h4⟩, h5⟩, h6⟩, h7⟩, h8⟩, h9⟩, h10⟩,
      h11⟩, h12⟩, h13⟩, h14⟩, h15⟩, h16⟩, h17⟩, h18⟩ := h
    simp [lexAux, h1, h2, h3, h4, h5, h6, h7, h8, h9, h10, h11, h12, h13, h14,
      h15, h16, h17, h18]
  · rfl

/-- Witness for claim C6's step property at the stray `@`. -/
theorem claim6_witness :
    isLegalStart '@' = false ∧
    lexAux 3 ['@', ';'] 7 = ((lexAux 2 [';'] 7).1, ⟨'@', 7⟩ :: (lexAux 2 [';'] 7).2) :=
  ⟨by decide, claim6_lexer_recovery.1 2 [';'] 7 '@' (by decide)⟩

/-- Inversion of a successful `Except` bind. -/
theorem exceptBind_ok {α β : Type} {x : Except String α} {f : α → Except String β} {b : β}
    (h : (x >>= f) = .ok b) : ∃ a, x = .ok a ∧ f a = .ok b := by
  cases x with
  | error e => simp [Bind.bind, Except.bind] at h
  | ok a => exact ⟨a, rfl, by simpa [Bind.bind, Except.bind] using h⟩

/-- Lowering a statement list distributes over append. -/
theorem genStmtList_append (fuel : Nat) (s : GenState) (l1 l2 : List AST) :
    genStmtList fuel s (l1 ++ l2) =
      (genStmtList fuel s l1) >>= fun s' => genStmtList fuel s' l2 := by
  induction l1 generalizing s with
  | nil => rfl
  | cons a as ih =>
    simp only [genStmtList, List.cons_append, List.foldlM_cons]
    cases genStatement fuel s a with
    | error e => rfl
    | ok s2 => exact ih s2

/-- Claim C4 counterexample: the call to the undeclared `g` inside `f`
raises, the exception propagates out of `generate_ir`, and the whole
module is lost — the intact sibling `h` is not lowered and no IR at all
is retained in the output (src/main.py catches the exception and
returns). -/
theorem claim4_counterexample :
    generate_ir c4prog = .error "Function g not declared" ∧
    (generate_ir c4prog).toOption = none :=
  ⟨rfl, rfl⟩

/-- Claim C4 as amended: a fatal lowering error is *not* confined to the
enclosing function — it short-circuits the statement fold of the whole
module, so everything after the failing statement is never lowered and
`generate_ir` returns the error instead of any module. -/
theorem claim4_lowering_error_aborts_module :
    (∀ (fuel : Nat) (s0 s1 : GenState) (l1 l2 : List AST) (stmt : AST) (e : String),
      genStmtList fuel s0 l1 = .ok s1 →
      genStatement fuel s1 stmt = .error e →
      genStmtList fuel s0 (l1 ++ stmt :: l2) = .error e) ∧
    (∀ (fuel : Nat) (stmts : List AST) (lf : Option Leaf) (e : String),
      genStmtList fuel setupState stmts = .error e →
      generateIr fuel (.node "program" stmts lf) = .error e) := by
  constructor
  · intro fuel s0 s1 l1 l2 stmt e h1 h2
    rw [genStmtList_append, h1]
    show genStmtList fuel s1 (stmt :: l2) = .error e
    simp only [genStmtList, List.foldlM_cons, h2]
    rfl
  · intro fuel stmts lf e h
    show (genStmtList fuel setupState stmts >>= terminateIfNeeded) = .error e
    rw [h]
    rfl

/-- Witness for the amended claim C4. -/
theorem claim4_witness :
    genStmtList 3 setupState [] = .ok setupState ∧
    genStatement 3 setupState gcallStmt = .error "Function g not declared" ∧
    genStmtList 3 setupState ([] ++ gcallStmt :: []) = .error "Function g not declared" ∧
    generateIr 3 (.node "program" [gcallStmt] none) = .error "Function g not declared" :=
  ⟨rfl, rfl,
   claim4_lowering_error_aborts_module.1 3 setupState setupState [] [] gcallStmt _ rfl rfl,
   claim4_lowering_error_aborts_module.2 3 [gcallStmt] none _
     (claim4_lowering_error_aborts_module.1 3 setupState setupState [] [] gcallStmt _ rfl rfl)⟩

/-- `updateAt` only changes the indexed element. -/
theorem getElem?_updateAt (l : List α) (i : Nat) (f : α → α) :
    (updateAt i f l)[i]? = (l[i]?).map f := by
  induction l generalizing i with
  | nil => cases i <;> rfl
  | cons a as ih => cases i with
    | zero => simp [updateAt]
    | succ n => simpa [updateAt] using ih n

/-- Appending at the current block leaves the builder there and extends
exactly that block. -/
theorem currentBlock_appendCurrent {s : GenState} {b : BBlock}
    (h : s.currentBlock = some b) (i : Instr) :
    (appendCurrent s i).currentBlock = some ⟨b.name, b.instrs ++ [i]⟩ := by
  unfold GenState.currentBlock at h
  unfold GenState.currentBlock appendCurrent
  cases hb : s.builder with
  | none => rw [hb] at h; simp at h
  | some bu =>
    rw [hb] at h
    dsimp only at h
    simp only [hb]
    cases hf : s.module[bu.fidx]? with
    | none => rw [hf] at h; simp at h
    | some f =>
      rw [hf] at h
      dsimp only at h
      simp only [getElem?_updateAt, hf, Option.map_some']
      cases hblk : f.blocks[bu.bidx]? with
      | none => rw [hblk] at h; simp at h
      | some blk =>
        rw [hblk] at h
        simp only [Option.some.injEq] at h
        subst h
        simp

/-- Claim C7 counterexample: lowering the nested-if program succeeds and
appends the implicit `ret i32 0` to the builder's block (the outer merge
block), but the function's flat instruction sequence — its blocks in
append/serialization order — ends in the *unconditional branch* of the
inner merge block, not in a return, because `_generate_if` appends the
inner if's blocks after the outer merge block. -/
theorem claim7_counterexample :
    (generate_ir c7prog).map (fun m => m.map (fun f => (flatInstrs f).getLast?)) =
      .ok [some (.br "ifcont")] ∧
    (Instr.br "ifcont").isRet = false :=
  ⟨rfl, rfl⟩

/-- Claim C7 as amended: the implicit-return step appends `ret i32 0` to
the builder's *current insertion block* exactly when that block is not
already terminated (and leaves the state untouched otherwise), so the
block where lowering of a body finishes always ends in that return —
while the function's last block in layout order may still end in a
branch, as the counterexample shows. -/
theorem claim7_implicit_return :
    ∀ (s : GenState) (b : BBlock), s.currentBlock = some b →
    (b.isTerminated = true → terminateIfNeeded s = .ok s) ∧
    (b.isTerminated = false →
      terminateIfNeeded s = .ok (appendCurrent s (.ret (.const 0))) ∧
      (appendCurrent s (.ret (.const 0))).currentLast = some (.ret (.const 0))) := by
  intro s b h
  constructor
  · intro ht
    unfold terminateIfNeeded
    rw [h]
    simp [ht]
  · intro hf
    constructor
    · unfold terminateIfNeeded emitTerm
      rw [h]
      simp [hf]
    · unfold GenState.currentLast
      rw [currentBlock_appendCurrent h]
      simp

/-- Witness for the amended claim C7 at the freshly created `main`, in
both the unterminated and the already-terminated case. -/
theorem claim7_witness :
    setupState.currentBlock = some ⟨"entry", []⟩ ∧
    BBlock.isTerminated ⟨"entry", []⟩ = false ∧
    terminateIfNeeded setupState = .ok (appendCurrent setupState (.ret (.const 0))) ∧
    (appendCurrent setupState (.ret (.const 0))).currentLast = some (.ret (.const 0)) ∧
    BBlock.isTerminated ⟨"entry", [.ret (.const 0)]⟩ = true ∧
    terminateIfNeeded (appendCurrent setupState (.ret (.const 0))) =
      .ok (appendCurrent setupState (.ret (.const 0))) :=
  ⟨rfl, rfl,
   ((claim7_implicit_return setupState ⟨"entry", []⟩ rfl).2 rfl).1,
   ((claim7_implicit_return setupState ⟨"entry", []⟩ rfl).2 rfl).2,
   rfl,
   (claim7_implicit_return (appendCurrent setupState (.ret (.const 0)))
     ⟨"entry", [.ret (.const 0)]⟩ rfl).1 rfl⟩

/-- Claim C10: a successful `_generate_function_decl` restores
`symbol_table` and `builder` to exactly the values saved before the
function body was lowered, whatever happened inside. -/
theorem claim10_function_decl_restores_state :
    ∀ (fuel : Nat) (s s' : GenState) (ps : List AST) (rt body : AST) (lf : Option Leaf),
    genStatement fuel s (.node "function_decl" [.listNode ps, rt, body] lf) = .ok s' →
    s'.symbol_table = s.symbol_table ∧ s'.builder = s.builder := by
  intro fuel s s' ps rt body lf h
  cases fuel with
  | zero => simp [genStatement] at h
  | succ n =>
    simp only [genStatement] at h
    obtain ⟨⟨t1, i1, nm1⟩, ha, h⟩ := exceptBind_ok h
    obtain ⟨t2, hb, h⟩ := exceptBind_ok h
    obtain ⟨t3, hc, h⟩ := exceptBind_ok h
    obtain ⟨t4, hd, h⟩ := exceptBind_ok h
    simp only [pure, Except.pure, Except.ok.injEq] at h
    subst h
    exact ⟨rfl, rfl⟩

/-- Witness for claim C10. -/
theorem claim10_witness :
    genStatement 2 setupState fdecl0 = .ok c10result ∧
    c10result.symbol_table = setupState.symbol_table ∧
    c10result.builder = setupState.builder :=
  ⟨rfl, claim10_function_decl_restores_state 2 setupState c10result []
    (.node "return_type" [] (some (.str "int"))) (.node "block" [] none)
    (some (.str "f")) rfl⟩

/-- Claim C5 counterexample: a call line carrying three arguments yields
only the two `edi`/`esi` loads (both from `[rbp+0]`, because the lookup
key still carries its `%` prefix and misses the slot table) and the call;
the third argument `%c` contributes nothing and no diagnostic of any kind
is emitted — in particular no `; unhandled` comment. -/
theorem claim5_counterexample :
    ir_to_asm_lines ["%r1 = call i32 @f(i32 %a, i32 %b, i32 %c)"]
        [("a", -8), ("b", -16), ("c", -24)] =
      .ok ["section .text", "global main",
           "    mov     edi, DWORD [rbp+0]", "    mov     esi, DWORD [rbp+0]",
           "    call    f", "    mov     eax, eax"] ∧
    (ir_to_asm_lines ["%r1 = call i32 @f(i32 %a, i32 %b, i32 %c)"]
        [("a", -8), ("b", -16), ("c", -24)]).map
      (fun ls => ls.any (fun l => strContains l "%c" || strContains l "unhandled")) =
      .ok false :=
  ⟨rfl, rfl⟩

/-- The argument loop of the call branch only looks at the first `2 - i`
remaining parts (for well-formed later parts). -/
theorem callMoves_take :
    ∀ (ofs : List (String × Int)) (parts : List String) (i : Nat),
    (∀ p ∈ parts.drop (2 - i), strStartsWith p "i32 " = true → 2 ≤ (pySplitWs p).length) →
    callMoves ofs parts i = callMoves ofs (parts.take (2 - i)) i := by
  intro ofs parts
  induction parts with
  | nil => intro i _; rw [List.take_nil]
  | cons p rest ih =>
    intro i hwf
    by_cases hi : 2 ≤ i
    · -- every part from index 2 on is skipped or only error-checked
      have h20 : 2 - i = 0 := by omega
      have h21 : 2 - (i+1) = 0 := by omega
      rw [h20] at hwf ⊢
      rw [List.drop_zero] at hwf
      rw [List.take_zero]
      show callMoves ofs (p :: rest) i = .ok []
      have hrest : callMoves ofs rest (i+1) = .ok [] := by
        have hwf' : ∀ q ∈ rest.drop (2 - (i+1)),
            strStartsWith q "i32 " = true → 2 ≤ (pySplitWs q).length := by
          rw [h21, List.drop_zero]
          intro q hq hq2
          exact hwf q (List.mem_cons_of_mem p hq) hq2
        have := ih (i+1) hwf'
        rw [h21, List.take_zero] at this
        exact this
      simp only [callMoves]
      by_cases hp : strStartsWith p "i32 " = true
      · simp only [hp, if_true]
        have hlen := hwf p (List.mem_cons_self p rest) hp
        cases hsp : pySplitWs p with
        | nil => rw [hsp] at hlen; simp at hlen
        | cons a tl =>
          cases tl with
          | nil => rw [hsp] at hlen; simp at hlen
          | cons reg tl2 =>
            simp [hsp, hrest, Bind.bind, Except.bind,
              show ¬ i = 0 by omega, show ¬ i = 1 by omega]
      · simp only [hp, if_false]
        exact hrest
    · -- i is 0 or 1: the head is processed identically on both sides
      have htake : (p :: rest).take (2 - i) = p :: rest.take (2 - (i+1)) := by
        have : 2 - i = (2 - (i+1)) + 1 := by omega
        rw [this]
        rfl
      rw [htake]
      have hdrop : (p :: rest).drop (2 - i) = rest.drop (2 - (i+1)) := by
        have : 2 - i = (2 - (i+1)) + 1 := by omega
        rw [this]
        rfl
      rw [hdrop] at hwf
      show callMoves ofs (p :: rest) i = callMoves ofs (p :: rest.take (2 - (i+1))) i
      simp only [callMoves]
      by_cases hp : strStartsWith p "i32 " = true
      · simp only [hp, if_true]
        cases hsp : pySplitWs p with
        | nil => rfl
        | cons a tl =>
          cases tl with
          | nil => rfl
          | cons reg tl2 => rw [ih (i+1) hwf]
      · simp only [hp, if_false]
        exact ih (i+1) hwf

/-- Claim C5 as amended: for every call instruction the backend emits
argument loads for at most the first two listed arguments — the emitted
move sequence depends only on `parts.take 2`, so arguments from the third
on are silently dropped (no load, no diagnostic) whenever they are
well-formed enough not to crash the indexing. -/
theorem claim5_extra_call_args_ignored :
    ∀ (ofs : List (String × Int)) (parts : List String),
    (∀ p ∈ parts.drop 2, strStartsWith p "i32 " = true → 2 ≤ (pySplitWs p).length) →
    callMoves ofs parts 0 = callMoves ofs (parts.take 2) 0 := by
  intro ofs parts hwf
  exact callMoves_take ofs parts 0 hwf

/-- Witness for the amended claim C5 on a three-argument call. -/
theorem claim5_witness :
    callMoves [] ["i32 %a", "i32 %b", "i32 %c"] 0 =
      callMoves [] (["i32 %a", "i32 %b", "i32 %c"].take 2) 0 :=
  claim5_extra_call_args_ignored [] ["i32 %a", "i32 %b", "i32 %c"] (by decide)

/-- A literal regex fragment consumes exactly itself. -/
theorem litPrefix_append : ∀ (pat rest : List Char), litPrefix pat (pat ++ rest) = some rest := by
  intro pat rest
  induction pat with
  | nil => rfl
  | cons c cs ih => simp [litPrefix, ih]

/-- `takeWhile` over an all-satisfying prefix. -/
theorem takeWhile_append_all {p : Char → Bool} :
    ∀ (l1 l2 : List Char), l1.all p = true →
    (l1 ++ l2).takeWhile p = l1 ++ l2.takeWhile p := by
  intro l1 l2 h
  induction l1 with
  | nil => simp
  | cons c cs ih =>
    simp only [List.all_cons, Bool.and_eq_true] at h
    simp [List.takeWhile_cons, h.1, ih h.2]

/-- `dropWhile` over an all-satisfying prefix. -/
theorem dropWhile_append_all {p : Char → Bool} :
    ∀ (l1 l2 : List Char), l1.all p = true →
    (l1 ++ l2).dropWhile p = l2.dropWhile p := by
  intro l1 l2 h
  induction l1 with
  | nil => simp
  | cons c cs ih =>
    simp only [List.all_cons, Bool.and_eq_true] at h
    simp [List.dropWhile_cons, h.1, ih h.2]

/-- A maximal-munch character class stops exactly at the first
non-matching character. -/
theorem span1_append {p : Char → Bool} (l1 : List Char) (c : Char) (l2 : List Char)
    (h1 : l1 ≠ []) (h2 : l1.all p = true) (hc : p c = false) :
    span1 p (l1 ++ c :: l2) = some (l1, c :: l2) := by
  unfold span1
  rw [takeWhile_append_all l1 (c :: l2) h2, dropWhile_append_all l1 (c :: l2) h2]
  simp [List.takeWhile_cons, List.dropWhile_cons, hc, h1]

/-- `optQuote` is the identity when the head is not a double quote. -/
theorem optQuote_cons {c : Char} (h : ¬ c = '"') (l : List Char) :
    optQuote (c :: l) = c :: l := by
  simp [optQuote, h]

/-- `matchAlloca` on a well-formed unquoted alloca line captures exactly
the variable name. -/
theorem matchAlloca_mk (nm : String) (h1 : nm ≠ "") (h2 : nm.data.all isWordDot = true) :
    matchAlloca ("%" ++ nm ++ " = alloca i32").data = some nm := by
  obtain ⟨d⟩ := nm
  obtain ⟨c, cs, rfl⟩ : ∃ c cs, d = c :: cs := by
    cases d with
    | nil => exact absurd rfl h1
    | cons c cs => exact ⟨c, cs, rfl⟩
  have hc : isWordDot c = true := by
    simp only [List.all_cons, Bool.and_eq_true] at h2
    exact h2.1
  have hcq : ¬ c = '"' := fun hq => by
    rw [hq] at hc
    exact absurd hc (by decide)
  have key : ∀ X : List Char, matchAlloca ('%' :: X) =
      (span1 isWordDot (optQuote X)).bind
        (fun p => (litPrefix " = alloca i32".data (optQuote p.2)).bind
          (fun _ => some ⟨p.1⟩)) := fun X => rfl
  have hdat : ("%" ++ String.mk (c :: cs) ++ " = alloca i32").data =
      '%' :: ((c :: cs) ++ " = alloca i32".data) := rfl
  rw [hdat, key, List.cons_append]
  rw [optQuote_cons hcq]
  have hspan := span1_append (p := isWordDot) (c :: cs) ' ' ("= alloca i32".data)
      (by simp) (by simpa using h2) (by decide)
  rw [show (' ' :: "= alloca i32".data) = " = alloca i32".data from rfl] at hspan
  rw [List.cons_append] at hspan
  rw [hspan]
  rfl

/-- Setting a fresh key appends it. -/
theorem assocSet_append {α : Type} :
    ∀ (acc : List (String × α)) (k : String) (v : α),
    assocGet acc k = none → assocSet acc k v = acc ++ [(k, v)] := by
  intro acc k v h
  induction acc with
  | nil => rfl
  | cons kv rest ih =>
    obtain ⟨k', v'⟩ := kv
    by_cases hk : k' = k
    · simp [assocGet, hk] at h
    · simp only [assocGet, hk, if_neg hk] at h
      simp [assocSet, hk, ih h]

/-- A key absent from both halves is absent from the concatenation. -/
theorem assocGet_append_none {α : Type} :
    ∀ (acc : List (String × α)) (k nm : String) (v : α),
    assocGet acc k = none → ¬ nm = k → assocGet (acc ++ [(nm, v)]) k = none := by
  intro acc k nm v h hne
  induction acc with
  | nil => simp [assocGet, hne]
  | cons kv rest ih =>
    obtain ⟨k', v'⟩ := kv
    by_cases hk : k' = k
    · simp [assocGet, hk] at h
    · simp only [assocGet, hk, if_neg hk] at h
      simp [assocGet, hk, ih h]

/-- The `parse_allocas` fold over well-formed alloca lines for pairwise
distinct fresh names extends the accumulator with the names in order at
consecutive offsets 8 apart. -/
theorem parse_allocas_fold :
    ∀ (names : List String) (acc : List (String × Int)) (ofs : Int),
    (∀ nm ∈ names, nm ≠ "" ∧ nm.data.all isWordDot = true) →
    (∀ nm ∈ names, assocGet acc nm = none) →
    names.Nodup →
    (names.map (fun nm => "%" ++ nm ++ " = alloca i32")).foldl allocaStep (acc, ofs) =
      (acc ++ offsetsFrom ofs names, ofs - 8 * names.length) := by
  intro names
  induction names with
  | nil => intro acc ofs _ _ _; simp [offsetsFrom]
  | cons nm rest ih =>
    intro acc ofs hwf hfresh hnd
    simp only [List.map_cons, List.foldl_cons]
    have hm := matchAlloca_mk nm (hwf nm (by simp)).1 (hwf nm (by simp)).2
    have hset : assocSet acc nm ofs = acc ++ [(nm, ofs)] :=
      assocSet_append acc nm ofs (hfresh nm (by simp))
    have hstep : allocaStep (acc, ofs) ("%" ++ nm ++ " = alloca i32") =
        (assocSet acc nm ofs, ofs - 8) := by
      unfold allocaStep
      rw [hm]
    rw [hstep, hset]
    rw [ih (acc ++ [(nm, ofs)]) (ofs - 8)
      (fun q hq => hwf q (List.mem_cons_of_mem nm hq))
      (fun q hq => assocGet_append_none acc q nm ofs
        (hfresh q (List.mem_cons_of_mem nm hq))
        (fun he => (List.nodup_cons.mp hnd).1 (he ▸ hq)))
      (List.nodup_cons.mp hnd).2]
    simp only [offsetsFrom, List.append_assoc, List.singleton_append, List.length_cons,
      Prod.mk.injEq]
    refine ⟨trivial, ?_⟩
    push_cast
    ring

/-- Claim C9 as amended, part 1: `parse_allocas` builds one module-global
table — the alloca names of the whole input in order of appearance at
contiguous offsets -8, -16, -24, ... irrespective of function
boundaries. -/
theorem parse_allocas_offsets (names : List String)
    (hwf : ∀ nm ∈ names, nm ≠ "" ∧ nm.data.all isWordDot = true)
    (hnd : names.Nodup) :
    parse_allocas (names.map (fun nm => "%" ++ nm ++ " = alloca i32")) =
      offsetsFrom (-8) names := by
  unfold parse_allocas
  rw [parse_allocas_fold names [] (-8) hwf (fun nm _ => rfl) hnd]
  rfl

/-- Folding `min` from a lower bound keeps the lower bound. -/
theorem foldl_min_comm : ∀ (l : List Int) (a b : Int),
    l.foldl min (min a b) = min a (l.foldl min b) := by
  intro l
  induction l with
  | nil => intro a b; rfl
  | cons v vs ih =>
    intro a b
    simp only [List.foldl_cons]
    rw [min_assoc, ih]

/-- The minimum of the offsets handed out from `ofs` downward is the last
one. -/
theorem minValues_offsetsFrom : ∀ (names : List String) (ofs : Int),
    minValues ((offsetsFrom ofs names).map (·.2)) =
      if names.isEmpty then 0 else ofs - 8 * ((names.length : Int) - 1) := by
  intro names
  induction names with
  | nil => intro ofs; rfl
  | cons nm rest ih =>
    intro ofs
    cases rest with
    | nil =>
      show (ofs : Int) = if ([nm] : List String).isEmpty then 0 else ofs - 8 * ((1 : Int) - 1)
      norm_num
    | cons nm2 rest2 =>
      have hIH := ih (ofs - 8)
      rw [if_neg (by simp)] at hIH
      have hexp2 : (offsetsFrom (ofs - 8) (nm2 :: rest2)).map (·.2) =
          (ofs - 8) :: (offsetsFrom (ofs - 8 - 8) rest2).map (·.2) := by
        simp [offsetsFrom]
      rw [hexp2] at hIH
      have h1 : minValues ((offsetsFrom ofs (nm :: nm2 :: rest2)).map (·.2)) =
          ((offsetsFrom (ofs - 8 - 8) rest2).map (·.2)).foldl min (min ofs (ofs - 8)) := rfl
      rw [h1, foldl_min_comm]
      have h2 : ((offsetsFrom (ofs - 8 - 8) rest2).map (·.2)).foldl min (ofs - 8) =
          minValues ((ofs - 8) :: (offsetsFrom (ofs - 8 - 8) rest2).map (·.2)) := rfl
      rw [h2, hIH, if_neg (by simp)]
      simp only [List.length_cons]
      push_cast
      omega

/-- The prologue's reserve amount over a module-global slot table: 8 bytes
per alloca in the whole module. -/
theorem neg_minValues_offsetsFrom (names : List String) :
    -(minValues ((offsetsFrom (-8) names).map (·.2))) = 8 * (names.length : Int) := by
  cases names with
  | nil => rfl
  | cons nm rest =>
    rw [minValues_offsetsFrom, if_neg (by simp)]
    simp only [List.length_cons]
    push_cast
    ring

/-- Claim C9 counterexample: the slot table is computed over the whole
module at once, so the second function's first variable `x` sits at -24
(not at -8 as per-function assignment would give), and *both* prologues
reserve 32 bytes — 8 bytes per alloca of the whole module — while the
claimed per-function amount 16 appears nowhere. -/
theorem claim9_counterexample :
    parse_allocas c9lines = [("a", -8), ("b", -16), ("x", -24), ("y", -32)] ∧
    assocGet (parse_allocas c9lines) "x" = some (-24) ∧
    ir_to_asm_lines c9lines (parse_allocas c9lines) =
      .ok ["section .text", "global main",
           "\nmain:", "    push    rbp", "    mov     rbp, rsp", "    sub     rsp, 32",
           "    leave", "    ret",
           "\nsum:", "    push    rbp", "    mov     rbp, rsp", "    sub     rsp, 32",
           "    leave", "    ret"] ∧
    (ir_to_asm_lines c9lines (parse_allocas c9lines)).map
      (fun ls => ls.count "    sub     rsp, 16") = .ok 0 :=
  ⟨rfl, rfl, rfl, rfl⟩

/-- Claim C9 as amended: `parse_allocas` assigns one module-global table:
the alloca names of the whole input, in order of appearance, at
contiguous 8-byte-aligned offsets -8, -16, -24, ...; every function's
prologue reserves 8 bytes per slot *of the whole module*; and the table
is a pure function of the IR lines, so repeated compilations of the same
source assign identical offsets. -/
theorem claim9_slot_table :
    (∀ (names : List String),
      (∀ nm ∈ names, nm ≠ "" ∧ nm.data.all isWordDot = true) → names.Nodup →
      parse_allocas (names.map (fun nm => "%" ++ nm ++ " = alloca i32")) =
        offsetsFrom (-8) names) ∧
    (∀ (names : List String),
      -(minValues ((offsetsFrom (-8) names).map (·.2))) = 8 * (names.length : Int)) ∧
    (∀ (names : List String),
      processLine (offsetsFrom (-8) names) "define i32 @sum() \x7b" =
        .ok ["\nsum:", "    push    rbp", "    mov     rbp, rsp",
             "    sub     rsp, " ++ toString (8 * (names.length : Int))]) ∧
    (∀ (lines1 lines2 : List String), lines1 = lines2 →
      parse_allocas lines1 = parse_allocas lines2) := by
  refine ⟨parse_allocas_offsets, neg_minValues_offsetsFrom, ?_, fun l1 l2 h => by rw [h]⟩
  intro names
  have base : processLine (offsetsFrom (-8) names) "define i32 @sum() \x7b" =
      .ok ["\nsum:", "    push    rbp", "    mov     rbp, rsp",
           "    sub     rsp, " ++
             toString (-(minValues ((offsetsFrom (-8) names).map (·.2))))] := rfl
  rw [base, neg_minValues_offsetsFrom]

/-- Witness for the amended claim C9 on a two-variable module. -/
theorem claim9_witness :
    (["a", "b"] : List String).Nodup ∧
    parse_allocas ((["a", "b"] : List String).map (fun nm => "%" ++ nm ++ " = alloca i32")) =
      offsetsFrom (-8) ["a", "b"] ∧
    processLine (offsetsFrom (-8) (["a", "b"] : List String)) "define i32 @sum() \x7b" =
      .ok ["\nsum:", "    push    rbp", "    mov     rbp, rsp",
           "    sub     rsp, " ++ toString (8 * ((["a", "b"] : List String).length : Int))] ∧
    parse_allocas c9lines = parse_allocas c9lines :=
  ⟨by decide,
   claim9_slot_table.1 ["a", "b"] (by decide) (by decide),
   claim9_slot_table.2.2.1 ["a", "b"],
   claim9_slot_table.2.2.2 c9lines c9lines rfl⟩

end CC
